import Mathlib

/-!
Shallow embedding of `src/utils.rs` of the `quic-p2p` repository: the
support layer of a peer-to-peer QUIC connection manager.  Bytes are
modelled as `Nat` (with `< 256` hypotheses where the byte range matters),
paths and peer addresses as `String`, the filesystem as an association
list, and the external collaborators (the bincode codec, the `tokio`
channel, the process-wide context, the `directories` lookup and the
Error and Event types of the crate, none of which are in the source tree)
as explicit structures modelled from the specification.
-/

/-- Modelled from the spec: the error type of the crate is "a tagged variant
including at least `Io(...)` and `Configuration(String)` kinds"; the error
taxonomy also lists serialization/deserialization failure.  `error.rs` is
not part of the visible source. -/
inductive IoErrorKind where
  | notFound
  | other (msg : String)
deriving DecidableEq, Repr

/-- Modelled from the spec: the crate `Error` type (see `IoErrorKind`). -/
inductive Error where
  | Io (kind : IoErrorKind)
  | Configuration (msg : String)
  | Serialisation (msg : String)
deriving DecidableEq, Repr

/-- Modelled from the spec: the event type is "a tagged variant including at
least `UnsentUserMessage { peer_addr, msg }`".  `event.rs` is not part of
the visible source.  Peer addresses are modelled as strings, payload bytes
as lists of naturals. -/
inductive Event where
  | UnsentUserMessage (peer_addr : String) (msg : List Nat)
deriving DecidableEq, Repr

/-- One lowercase hexadecimal digit, as the Rust format {:x} renders a nibble. -/
def hexDigit (n : Nat) : String :=
  match n with
  | 0 => "0" | 1 => "1" | 2 => "2" | 3 => "3"
  | 4 => "4" | 5 => "5" | 6 => "6" | 7 => "7"
  | 8 => "8" | 9 => "9" | 10 => "a" | 11 => "b"
  | 12 => "c" | 13 => "d" | 14 => "e" | _ => "f"

/-- The Rust format {:02x} applied to a byte (`u8`): two lowercase hex digits,
zero-padded on the left. -/
def hex2 (b : Nat) : String :=
  hexDigit (b / 16 % 16) ++ hexDigit (b % 16)

/-- The Rust format {:?} (default debug representation) applied to a byte slice:
the decimal bytes, comma-space separated, in square brackets. -/
def rustDebugByteSlice (data : List Nat) : String :=
  "[" ++ String.intercalate ", " (data.map (fun b => toString b)) ++ "]"

/-- `bin_data_format` from `src/utils.rs`: convert binary data to a
displayable format.  Fewer than 8 bytes are rendered in full via the debug
representation; otherwise the first four and last four bytes are shown in
two-digit hex with `..` in between. -/
def bin_data_format (data : List Nat) : String :=
  let len := data.length
  if len < 8 then
    "[ " ++ rustDebugByteSlice data ++ " ]"
  else
    "[ " ++ hex2 (data.getD 0 0) ++ " " ++ hex2 (data.getD 1 0) ++ " "
      ++ hex2 (data.getD 2 0) ++ " " ++ hex2 (data.getD 3 0) ++ ".."
      ++ hex2 (data.getD (len - 4) 0) ++ " " ++ hex2 (data.getD (len - 3) 0) ++ " "
      ++ hex2 (data.getD (len - 2) 0) ++ " " ++ hex2 (data.getD (len - 1) 0) ++ " ]"

/-- The local filesystem: named files with byte contents, plus the set of
paths at which `File::create` fails (permissions and the like).  Paths are
modelled as strings. -/
structure Fs where
  files : List (String × List Nat)
  unwritable : List String
deriving DecidableEq, Repr

/-- Contents of the file at `p`, or `none` when no such file exists
(`File::open` fails). -/
def Fs.readFile (fs : Fs) (p : String) : Option (List Nat) :=
  (fs.files.find? (fun q => q.1 == p)).map (fun q => q.2)

/-- Replace (or add) the file at `p` with contents `bs`. -/
def Fs.setFile (fs : Fs) (p : String) (bs : List Nat) : Fs :=
  { fs with files := (p, bs) :: fs.files.filter (fun q => q.1 != p) }

/-- `File::create`: create the file at `p`, or truncate it to empty if it
already exists; fails (IO error) on an unwritable path. -/
def Fs.create (fs : Fs) (p : String) : Option Fs :=
  if p ∈ fs.unwritable then none else some (fs.setFile p [])

/-- A binary codec for values of type `α`, as the source uses `bincode`:
`serialize` yields the encoded bytes, `deserialize` consumes a prefix of a
byte stream (as `bincode::deserialize_from` reads from a reader) and
returns the decoded value together with the unconsumed rest.  `bincode` is
an external crate; concrete instances below follow its documented format. -/
structure Codec (α : Type) where
  serialize : α → Except String (List Nat)
  deserialize : List Nat → Except String (α × List Nat)

/-- Modelled from the spec: "the on-disk byte layout is exactly the binary
serialization of the in-memory value" — decoding the bytes produced by
encoding gives the value back, consuming all of them. -/
def Codec.Lawful {α : Type} (c : Codec α) : Prop :=
  ∀ (v : α) (bs : List Nat), c.serialize v = .ok bs → c.deserialize bs = .ok (v, [])

/-- Modelled from the spec: the codec "deserializes exactly one value of
the expected shape" from a stream — a successful decode consumes a
determined prefix of the stream and does not depend on the bytes after it. -/
def Codec.PrefixStable {α : Type} (c : Codec α) : Prop :=
  ∀ (bs : List Nat) (v : α) (rest : List Nat), c.deserialize bs = .ok (v, rest) →
    ∃ consumed, bs = consumed ++ rest ∧
      ∀ rest2, c.deserialize (consumed ++ rest2) = .ok (v, rest2)

/-- `read_from_disk` from `src/utils.rs`: open the file, wrap it in a
buffered reader and decode one value from it.  A missing file is an IO
error; bytes that do not decode are a deserialization error; trailing
bytes after the decoded value are ignored (reader semantics). -/
def read_from_disk {α : Type} (codec : Codec α) (fs : Fs) (file_path : String) :
    Except Error α :=
  match fs.readFile file_path with
  | none => .error (Error.Io IoErrorKind.notFound)
  | some bs =>
    match codec.deserialize bs with
    | .ok (v, _) => .ok v
    | .error msg => .error (Error.Serialisation msg)

/-- `write_to_disk` from `src/utils.rs`: `File::create` the file (creating
or truncating it), wrap it in a buffered writer and encode the value into
it.  The create happens before the value is encoded, so an encoding
failure leaves behind the created-and-empty file. -/
def write_to_disk {α : Type} (codec : Codec α) (fs : Fs) (file_path : String) (s : α) :
    Fs × Except Error Unit :=
  match fs.create file_path with
  | none => (fs, .error (Error.Io (IoErrorKind.other "create failed")))
  | some fs1 =>
    match codec.serialize s with
    | .ok bs => (fs1.setFile file_path bs, .ok ())
    | .error msg => (fs1, .error (Error.Serialisation msg))

/-- `bincode` encoding of `bool` (one byte, `1` for true, `0` for false),
used as a concrete serializable record type for witnesses. -/
def bincodeBool : Codec Bool where
  serialize := fun b => .ok [if b then 1 else 0]
  deserialize := fun bs =>
    match bs with
    | [] => .error "io error: unexpected end of file"
    | b :: rest =>
      if b = 1 then .ok (true, rest)
      else if b = 0 then .ok (false, rest)
      else .error "invalid value for bool"

theorem bincodeBool_lawful : bincodeBool.Lawful := by
  intro v bs h
  cases v <;> simp [bincodeBool] at h <;> simp [← h, bincodeBool]

theorem bincodeBool_prefixStable : bincodeBool.PrefixStable := by
  intro bs v rest h
  match bs with
  | [] => simp [bincodeBool] at h
  | b :: tl =>
    refine ⟨[b], ?_, ?_⟩
    · by_cases hb1 : b = 1
      · simp [bincodeBool, hb1] at h
        simp [h.2, hb1]
      · by_cases hb0 : b = 0
        · simp [bincodeBool, hb1, hb0] at h
          simp [h.2, hb0]
        · simp [bincodeBool, hb1, hb0] at h
    · intro rest2
      by_cases hb1 : b = 1
      · simp [bincodeBool, hb1] at h ⊢
        exact h.1
      · by_cases hb0 : b = 0
        · simp [bincodeBool, hb1, hb0] at h ⊢
          exact h.1
        · simp [bincodeBool, hb1, hb0] at h

/-- Modelled from the spec: `Dirs` (from the out-of-scope `dirs.rs`) is
"an opaque platform-specific handle (desktop variant)"; the handle itself
is modelled as a path string. -/
inductive Dirs where
  | Desktop (dirs : String)
deriving DecidableEq, Repr

/-- The compile-time build configuration the `#[cfg(...)]` attributes on
`project_dir` branch on, together with the external directories crate and its
OS path lookup (`ProjectDirs::from(qualifier, organization, application)`,
returning nothing when the path is undeterminable). -/
structure Build where
  isDesktop : Bool
  projectDirsFrom : String → String → String → Option String

/-- `project_dir` from `src/utils.rs`: on desktop builds, resolve the
conventional per-application directory for ("net", "MaidSafe",
"quic-p2p"), failing with an IO-not-found error when the OS lookup yields
nothing; on non-desktop builds, always fail with a configuration error.
The two `#[cfg]` variants of the source are combined by branching on the
build classification, which is fixed per build. -/
def project_dir (b : Build) : Except Error Dirs :=
  if b.isDesktop then
    match b.projectDirsFrom "net" "MaidSafe" "quic-p2p" with
    | some dirs => .ok (Dirs.Desktop dirs)
    | none => .error (Error.Io IoErrorKind.notFound)
  else
    .error (Error.Configuration
      "No default project dir on non-desktop platforms. User must provide an override path.")

/-- Modelled from the spec: one endpoint of a `tokio::sync::mpsc` bounded
channel (the crate is external).  The sender and the receiver of a pair
share the same channel, identified here by the channel state: its fixed
capacity and its queue of in-flight messages. -/
structure MpscChannel (α : Type) where
  capacity : Nat
  queue : List α
deriving DecidableEq, Repr

/-- Modelled from the spec: the sending half of an mpsc channel pair. -/
structure MpscSender (α : Type) where
  chan : MpscChannel α
deriving DecidableEq, Repr

/-- Modelled from the spec: the receiving half of an mpsc channel pair. -/
structure MpscReceiver (α : Type) where
  chan : MpscChannel α
deriving DecidableEq, Repr

/-- Modelled from the spec: `tokio::sync::mpsc::channel(buffer)` — create
a bounded channel of the given capacity and return its paired sender and
receiver; creation has no failure conditions. -/
def mpsc_channel (α : Type) (buffer : Nat) : MpscSender α × MpscReceiver α :=
  (⟨⟨buffer, []⟩⟩, ⟨⟨buffer, []⟩⟩)

/-- `connect_terminator` from `src/utils.rs`: obtain a `ConnectTerminator`
(a sender of unit signals) paired with a corresponding receiver, over a
bounded channel of capacity 1. -/
def connect_terminator : MpscSender Unit × MpscReceiver Unit :=
  mpsc_channel Unit 1

/-- Modelled from the spec: the event-emission channel handle held by the
shared context: `send(Event)` succeeds and enqueues the event while a
receiver remains, and fails (non-fatally) otherwise. -/
structure EventTx where
  hasReceiver : Bool
  sent : List Event
deriving DecidableEq, Repr

/-- Modelled from the spec: submitting an event to the event channel.  The
`Bool` is the success flag of the underlying `send` result, which the
handler discards. -/
def EventTx.send (tx : EventTx) (ev : Event) : EventTx × Bool :=
  if tx.hasReceiver then ({ tx with sent := tx.sent ++ [ev] }, true) else (tx, false)

/-- Modelled from the spec: the process-wide shared context reached through
`ctx_mut` (its definition is out of scope): a connection registry mapping
peer addresses to live connection handles, the event-emission channel, and
whatever other state the context carries (opaque here, to state frame
conditions).  Connection handles and the remaining state are opaque type
parameters. -/
structure Ctx (Conn Rest : Type) where
  connections : List (String × Conn)
  event_tx : EventTx
  rest : Rest

/-- `HashMap::remove` on the registry, keyed by peer address (the handler
discards the returned connection handle). -/
def removeConn {Conn : Type} (m : List (String × Conn)) (peer_addr : String) :
    List (String × Conn) :=
  m.filter (fun q => q.1 != peer_addr)

set_option linter.unusedVariables false in
/-- `handle_communication_err` from `src/utils.rs`: log the failure (a
side channel, not modelled, which is where `e` and `details` are used),
then under exclusive access to the shared context remove the registry
entry of the peer, discarding the result, and, if an undelivered payload
was supplied, submit an `UnsentUserMessage` event carrying the peer
address and the payload, discarding the send result.  The function
returns nothing; its effect is the updated context. -/
def handle_communication_err {Conn Rest : Type} (c : Ctx Conn Rest) (peer_addr : String)
    (e : Error) (details : String) (unsent_user_msg : Option (List Nat)) : Ctx Conn Rest :=
  let c1 := { c with connections := removeConn c.connections peer_addr }
  match unsent_user_msg with
  | some m =>
    { c1 with event_tx := (c1.event_tx.send (Event.UnsentUserMessage peer_addr m)).1 }
  | none => c1

/-- Value of one lowercase hexadecimal digit character, for reading the
formatter output back. -/
def hexCharVal (c : Char) : Option Nat :=
  if c = '0' then some 0 else if c = '1' then some 1
  else if c = '2' then some 2 else if c = '3' then some 3
  else if c = '4' then some 4 else if c = '5' then some 5
  else if c = '6' then some 6 else if c = '7' then some 7
  else if c = '8' then some 8 else if c = '9' then some 9
  else if c = 'a' then some 10 else if c = 'b' then some 11
  else if c = 'c' then some 12 else if c = 'd' then some 13
  else if c = 'e' then some 14 else if c = 'f' then some 15
  else none

/-- Read a two-hex-digit group back into the byte it shows. -/
def decodeHexPair (cs : List Char) : Option Nat :=
  match cs with
  | [c1, c2] =>
    match hexCharVal c1, hexCharVal c2 with
    | some hi, some lo => some (16 * hi + lo)
    | _, _ => none
  | _ => none

/-- After `setFile`, reading the same path yields exactly the new bytes. -/
theorem Fs.readFile_setFile (fs : Fs) (p : String) (bs : List Nat) :
    (fs.setFile p bs).readFile p = some bs := by
  simp [Fs.readFile, Fs.setFile, List.find?]

set_option maxRecDepth 4096 in
/-- Each two-digit hex group shows exactly the byte it was made from:
reading it back recovers the byte, for every byte value. -/
theorem decodeHexPair_hex2 : ∀ b, b < 256 → decodeHexPair (hex2 b).data = some b := by
  decide

/-- C2: for every byte sequence of length at least 8, `bin_data_format`
returns the bracket-enclosed string showing the first four and the last
four bytes, each as a two-digit hexadecimal group faithfully encoding the
byte, with the `..` marker between the fourth and fifth group; on
`[0x01, ..., 0x0a]` it returns exactly "[ 01 02 03 04..07 08 09 0a ]". -/
theorem bin_data_format_compressed_form (data : List Nat) (h : 8 ≤ data.length) :
    bin_data_format data =
      "[ " ++ hex2 (data.getD 0 0) ++ " " ++ hex2 (data.getD 1 0) ++ " "
        ++ hex2 (data.getD 2 0) ++ " " ++ hex2 (data.getD 3 0) ++ ".."
        ++ hex2 (data.getD (data.length - 4) 0) ++ " "
        ++ hex2 (data.getD (data.length - 3) 0) ++ " "
        ++ hex2 (data.getD (data.length - 2) 0) ++ " "
        ++ hex2 (data.getD (data.length - 1) 0) ++ " ]"
    ∧ (∀ b, b < 256 → decodeHexPair (hex2 b).data = some b)
    ∧ bin_data_format [1, 2, 3, 4, 5, 6, 7, 8, 9, 10] = "[ 01 02 03 04..07 08 09 0a ]" := by
  refine ⟨?_, decodeHexPair_hex2, by decide⟩
  simp [bin_data_format, Nat.not_lt.mpr h]

/-- Witness for C2 at the 10-byte input of the claim. -/
theorem bin_data_format_compressed_form_witness :
    bin_data_format [1, 2, 3, 4, 5, 6, 7, 8, 9, 10] = "[ 01 02 03 04..07 08 09 0a ]" :=
  (bin_data_format_compressed_form [1, 2, 3, 4, 5, 6, 7, 8, 9, 10] (by decide)).2.2

/-- C3: for every byte sequence of fewer than 8 bytes, `bin_data_format`
renders the sequence in full via the default debug representation of a
byte list (wrapped in the outer bracket-space frame of the formatter); on
7 bytes all 7 bytes are shown, and on 0 bytes the empty-list debug form
is shown. -/
theorem bin_data_format_short_form :
    (∀ data : List Nat, data.length < 8 →
      bin_data_format data = "[ " ++ rustDebugByteSlice data ++ " ]")
    ∧ bin_data_format [1, 2, 3, 4, 5, 6, 7] = "[ [1, 2, 3, 4, 5, 6, 7] ]"
    ∧ rustDebugByteSlice [1, 2, 3, 4, 5, 6, 7] = "[1, 2, 3, 4, 5, 6, 7]"
    ∧ bin_data_format [] = "[ [] ]"
    ∧ rustDebugByteSlice [] = "[]" := by
  refine ⟨?_, by decide, by decide, by decide, by decide⟩
  intro data h
  simp [bin_data_format, h]

/-- Witness for C3 at the 7-byte boundary input of the claim. -/
theorem bin_data_format_short_form_witness :
    bin_data_format [1, 2, 3, 4, 5, 6, 7]
      = "[ " ++ rustDebugByteSlice [1, 2, 3, 4, 5, 6, 7] ++ " ]" :=
  bin_data_format_short_form.1 [1, 2, 3, 4, 5, 6, 7] (by decide)

/-- C4: on a non-desktop build `project_dir` always returns the
configuration error and never a directory handle, whatever the OS lookup
(the filesystem state) would return; on a desktop build whose OS lookup
yields nothing it returns an IO error of kind not-found. -/
theorem project_dir_platform_errors (b : Build) :
    (b.isDesktop = false →
      project_dir b = .error (Error.Configuration
        "No default project dir on non-desktop platforms. User must provide an override path.")
      ∧ ∀ d, project_dir b ≠ .ok d)
    ∧ (b.isDesktop = true →
        b.projectDirsFrom "net" "MaidSafe" "quic-p2p" = none →
        project_dir b = .error (Error.Io IoErrorKind.notFound)) := by
  constructor
  · intro hnd
    constructor
    · simp [project_dir, hnd]
    · intro d
      simp [project_dir, hnd]
  · intro hd hlook
    simp [project_dir, hd, hlook]

/-- Witness for C4: a non-desktop build whose lookup would find a path
still gets the configuration error, and a desktop build whose lookup
finds nothing gets the IO not-found error. -/
theorem project_dir_platform_errors_witness :
    project_dir ⟨false, fun _ _ _ => some "/home/u/.local/share/quic-p2p"⟩
      = .error (Error.Configuration
        "No default project dir on non-desktop platforms. User must provide an override path.")
    ∧ project_dir ⟨true, fun _ _ _ => none⟩ = .error (Error.Io IoErrorKind.notFound) :=
  ⟨((project_dir_platform_errors ⟨false, fun _ _ _ => some "/home/u/.local/share/quic-p2p"⟩).1
      rfl).1,
   (project_dir_platform_errors ⟨true, fun _ _ _ => none⟩).2 rfl rfl⟩

/-- C8: `connect_terminator` returns a sender and receiver that are the
two halves of one shared channel (same channel state, initially empty),
whose capacity is exactly 1 and whose payload type is the unit signal;
creation is a total function with no failure outcome. -/
theorem connect_terminator_capacity_one :
    connect_terminator.1.chan = connect_terminator.2.chan
    ∧ connect_terminator.1.chan.capacity = 1
    ∧ connect_terminator.1.chan.queue = ([] : List Unit) :=
  ⟨rfl, rfl, rfl⟩

/-- Removing an address no entry has is a no-op on the registry. -/
theorem removeConn_of_absent {Conn : Type} (m : List (String × Conn)) (a : String)
    (h : ∀ q ∈ m, q.1 ≠ a) : removeConn m a = m := by
  refine List.filter_eq_self.mpr ?_
  intro q hq
  simpa [bne_iff_ne] using h q hq

/-- Every entry left after a removal has a different address. -/
theorem mem_removeConn_ne {Conn : Type} (m : List (String × Conn)) (a : String) :
    ∀ q ∈ removeConn m a, q.1 ≠ a := by
  intro q hq
  simp [removeConn, List.mem_filter, bne_iff_ne] at hq
  exact hq.2

/-- The receiver flag of the event channel is untouched by a send. -/
theorem EventTx.send_fst_hasReceiver (tx : EventTx) (ev : Event) :
    ((tx.send ev).1).hasReceiver = tx.hasReceiver := by
  cases htx : tx.hasReceiver <;> simp [EventTx.send, htx]

/-- A send appends the event exactly when a receiver remains. -/
theorem EventTx.send_fst_sent (tx : EventTx) (ev : Event) :
    ((tx.send ev).1).sent = tx.sent ++ (if tx.hasReceiver then [ev] else []) := by
  cases htx : tx.hasReceiver <;> simp [EventTx.send, htx]

/-- C6: removal in `handle_communication_err` is idempotent.  When the
peer address is absent from the registry, the call with no payload is a
no-op on the context (no error, no panic — the function is total), so a
second call equals the first; with a payload, the second call leaves the
registry and the rest of the context exactly as the first call did, and
adds at most the one notification event the call itself submits. -/
theorem handle_communication_err_idempotent {Conn Rest : Type} (c : Ctx Conn Rest)
    (peer_addr : String) (e : Error) (details : String) (m : List Nat)
    (habs : ∀ q ∈ c.connections, q.1 ≠ peer_addr) :
    handle_communication_err c peer_addr e details none = c
    ∧ handle_communication_err (handle_communication_err c peer_addr e details none)
        peer_addr e details none
      = handle_communication_err c peer_addr e details none
    ∧ (handle_communication_err (handle_communication_err c peer_addr e details (some m))
         peer_addr e details (some m)).connections
      = (handle_communication_err c peer_addr e details (some m)).connections
    ∧ (handle_communication_err (handle_communication_err c peer_addr e details (some m))
         peer_addr e details (some m)).rest
      = (handle_communication_err c peer_addr e details (some m)).rest
    ∧ (handle_communication_err (handle_communication_err c peer_addr e details (some m))
         peer_addr e details (some m)).event_tx.sent
      = (handle_communication_err c peer_addr e details (some m)).event_tx.sent
        ++ (if c.event_tx.hasReceiver then [Event.UnsentUserMessage peer_addr m] else []) := by
  have hno : handle_communication_err c peer_addr e details none = c := by
    simp [handle_communication_err, removeConn_of_absent c.connections peer_addr habs]
  refine ⟨hno, by simp [hno], ?_, rfl, ?_⟩
  · simp [handle_communication_err,
      removeConn_of_absent _ _ (mem_removeConn_ne c.connections peer_addr)]
  · simp [handle_communication_err, EventTx.send_fst_sent, EventTx.send_fst_hasReceiver]

/-- Witness for C6: a registry holding only address "10.0.0.1:5000", the
handler called for the absent address "10.0.0.2:6000". -/
theorem handle_communication_err_idempotent_witness :
    handle_communication_err
        (⟨[("10.0.0.1:5000", (7 : Nat))], ⟨true, []⟩, (0 : Nat)⟩ : Ctx Nat Nat)
        "10.0.0.2:6000" (Error.Io IoErrorKind.notFound) "write failed" none
      = ⟨[("10.0.0.1:5000", 7)], ⟨true, []⟩, 0⟩ :=
  (handle_communication_err_idempotent
      (⟨[("10.0.0.1:5000", (7 : Nat))], ⟨true, []⟩, (0 : Nat)⟩ : Ctx Nat Nat)
      "10.0.0.2:6000" (Error.Io IoErrorKind.notFound) "write failed" [3]
      (by decide)).1

/-- C7: `handle_communication_err` submits an `UnsentUserMessage` event
carrying the peer address and payload exactly when a payload is supplied:
with a payload the event is appended to the channel when a receiver
remains and silently dropped (channel unchanged) when none remains; with
no payload the event channel is untouched.  The handler returns the
updated context in every case — its type admits no error outcome. -/
theorem handle_communication_err_event_submission {Conn Rest : Type} (c : Ctx Conn Rest)
    (peer_addr : String) (e : Error) (details : String) (m : List Nat) :
    ((handle_communication_err c peer_addr e details (some m)).event_tx.sent
      = c.event_tx.sent
        ++ (if c.event_tx.hasReceiver then [Event.UnsentUserMessage peer_addr m] else []))
    ∧ (c.event_tx.hasReceiver = false →
        (handle_communication_err c peer_addr e details (some m)).event_tx.sent
          = c.event_tx.sent)
    ∧ (handle_communication_err c peer_addr e details none).event_tx = c.event_tx := by
  refine ⟨?_, ?_, rfl⟩
  · simp [handle_communication_err, EventTx.send_fst_sent]
  · intro hnr
    simp [handle_communication_err, EventTx.send_fst_sent, hnr]

/-- Witness for C7: with a payload and a closed event channel (no
receiver) the submission is dropped and the sent list is unchanged. -/
theorem handle_communication_err_event_submission_witness :
    (handle_communication_err
        (⟨[("10.0.0.1:5000", (7 : Nat))], ⟨false, []⟩, (0 : Nat)⟩ : Ctx Nat Nat)
        "10.0.0.1:5000" (Error.Io IoErrorKind.notFound) "write failed"
        (some [1, 2])).event_tx.sent = [] :=
  (handle_communication_err_event_submission
      (⟨[("10.0.0.1:5000", (7 : Nat))], ⟨false, []⟩, (0 : Nat)⟩ : Ctx Nat Nat)
      "10.0.0.1:5000" (Error.Io IoErrorKind.notFound) "write failed" [1, 2]).2.1 rfl

/-- C10: with no payload, `handle_communication_err` submits nothing to
the event channel and its only mutation of the context is the removal of
the peer entry from the registry: the event channel (receiver flag and
sent events) and all remaining context state are unchanged. -/
theorem handle_communication_err_none_frame {Conn Rest : Type} (c : Ctx Conn Rest)
    (peer_addr : String) (e : Error) (details : String) :
    (handle_communication_err c peer_addr e details none).connections
      = removeConn c.connections peer_addr
    ∧ (handle_communication_err c peer_addr e details none).event_tx = c.event_tx
    ∧ (handle_communication_err c peer_addr e details none).event_tx.sent
      = c.event_tx.sent
    ∧ (handle_communication_err c peer_addr e details none).rest = c.rest :=
  ⟨rfl, rfl, rfl, rfl⟩

/-- C1: round-trip of the persistence codec.  For every value the codec
serializes and every writable path, `write_to_disk` succeeds and a
subsequent `read_from_disk` of the same path returns `Ok` of a value
equal to the one written. -/
theorem write_read_roundtrip {α : Type} (codec : Codec α) (hl : codec.Lawful)
    (fs : Fs) (p : String) (v : α) (bs : List Nat)
    (hw : p ∉ fs.unwritable) (hs : codec.serialize v = .ok bs) :
    (write_to_disk codec fs p v).2 = .ok ()
    ∧ read_from_disk codec (write_to_disk codec fs p v).1 p = .ok v := by
  have hcreate : fs.create p = some (fs.setFile p []) := by
    simp [Fs.create, hw]
  have hwrite : write_to_disk codec fs p v = ((fs.setFile p []).setFile p bs, .ok ()) := by
    simp [write_to_disk, hcreate, hs]
  refine ⟨by rw [hwrite], ?_⟩
  rw [hwrite]
  simp [read_from_disk, Fs.readFile_setFile, hl v bs hs]

/-- Witness for C1: writing `true` with the bincode bool codec to the path
"config" on an empty filesystem and reading it back. -/
theorem write_read_roundtrip_witness :
    (write_to_disk bincodeBool (⟨[], []⟩ : Fs) "config" true).2 = .ok ()
    ∧ read_from_disk bincodeBool
        (write_to_disk bincodeBool (⟨[], []⟩ : Fs) "config" true).1 "config" = .ok true :=
  write_read_roundtrip bincodeBool bincodeBool_lawful ⟨[], []⟩ "config" true [1]
    (by simp) rfl

/-- C5: `read_from_disk` fails with an IO error when the file at the path
does not exist, fails with a deserialization error when the bytes of the
file do not decode, and for every valid persisted file (one whose bytes
decode to a value consuming the whole file) truncating the file by at
least one byte makes `read_from_disk` return a deserialization error,
never a success with wrong data. -/
theorem read_from_disk_error_cases {α : Type} (codec : Codec α)
    (hps : codec.PrefixStable) (fs : Fs) (p : String) :
    (fs.readFile p = none →
      read_from_disk codec fs p = .error (Error.Io IoErrorKind.notFound))
    ∧ (∀ bs msg, fs.readFile p = some bs → codec.deserialize bs = .error msg →
        read_from_disk codec fs p = .error (Error.Serialisation msg))
    ∧ (∀ bs v cut tail, fs.readFile p = some bs → codec.deserialize bs = .ok (v, []) →
        bs = cut ++ tail → tail ≠ [] →
        ∃ msg, read_from_disk codec (fs.setFile p cut) p
          = .error (Error.Serialisation msg)) := by
  refine ⟨?_, ?_, ?_⟩
  · intro hnone
    simp [read_from_disk, hnone]
  · intro bs msg hread hde
    simp [read_from_disk, hread, hde]
  · intro bs v cut tail hread hde hcut htail
    cases hcase : codec.deserialize cut with
    | error msg =>
      exact ⟨msg, by simp [read_from_disk, Fs.readFile_setFile, hcase]⟩
    | ok wr =>
      exfalso
      obtain ⟨w, rest⟩ := wr
      obtain ⟨consumed, hsplit, hstable⟩ := hps cut w rest hcase
      have hbs : bs = consumed ++ (rest ++ tail) := by
        rw [hcut, hsplit, List.append_assoc]
      have : codec.deserialize bs = .ok (w, rest ++ tail) := by
        rw [hbs]; exact hstable (rest ++ tail)
      rw [hde] at this
      have hnil : rest ++ tail = [] := by
        injection this with h1
        exact (congrArg Prod.snd h1).symm
      exact htail (List.append_eq_nil.mp hnil).2


/-- Witness for C5: a missing file gives the IO not-found error, and the
one-byte bincode-bool file [1] truncated by one byte (to the empty file)
gives a deserialization error. -/
theorem read_from_disk_error_cases_witness :
    read_from_disk bincodeBool (⟨[], []⟩ : Fs) "config" = .error (Error.Io IoErrorKind.notFound)
    ∧ ∃ msg, read_from_disk bincodeBool
        ((⟨[("config", [1])], []⟩ : Fs).setFile "config" []) "config"
        = .error (Error.Serialisation msg) :=
  ⟨(read_from_disk_error_cases bincodeBool bincodeBool_prefixStable ⟨[], []⟩ "config").1 rfl,
   (read_from_disk_error_cases bincodeBool bincodeBool_prefixStable
       ⟨[("config", [1])], []⟩ "config").2.2 [1] true [] [1] (by decide) rfl rfl
     (by decide)⟩

/-- A codec for a type the binary encoder cannot resolve: serialization
always fails (the deserializer never succeeds either).  This stands for a
Rust type whose encoding is context-dependent in a way bincode cannot
handle, the failure case of `write_to_disk`. -/
def unencodableCodec : Codec Unit where
  serialize := fun _ => .error "the codec cannot encode this value"
  deserialize := fun _ => .error "the codec cannot decode this type"

/-- C9: `write_to_disk` is not atomic on error.  `File::create` runs
before serialization, so when serialization of the value fails the call
returns a serialization error while the file at the path has already been
created and emptied of any previous contents. -/
theorem write_to_disk_not_atomic {α : Type} (codec : Codec α) (fs : Fs) (p : String)
    (v : α) (msg : String) (hw : p ∉ fs.unwritable)
    (hs : codec.serialize v = .error msg) :
    (write_to_disk codec fs p v).2 = .error (Error.Serialisation msg)
    ∧ (write_to_disk codec fs p v).1.readFile p = some [] := by
  have hcreate : fs.create p = some (fs.setFile p []) := by
    simp [Fs.create, hw]
  have hwrite : write_to_disk codec fs p v
      = (fs.setFile p [], .error (Error.Serialisation msg)) := by
    simp [write_to_disk, hcreate, hs]
  exact ⟨by rw [hwrite], by rw [hwrite]; exact Fs.readFile_setFile fs p []⟩

/-- Witness for C9: the path "config" initially holds bytes [9, 9]; after
the failed write the call has returned a serialization error and the file
has been emptied. -/
theorem write_to_disk_not_atomic_witness :
    (write_to_disk unencodableCodec (⟨[("config", [9, 9])], []⟩ : Fs) "config" ()).2
      = .error (Error.Serialisation "the codec cannot encode this value")
    ∧ (write_to_disk unencodableCodec (⟨[("config", [9, 9])], []⟩ : Fs) "config" ()).1.readFile
        "config" = some [] :=
  write_to_disk_not_atomic unencodableCodec ⟨[("config", [9, 9])], []⟩ "config" ()
    "the codec cannot encode this value" (by simp) rfl
